import Mathlib

/-!
Verification of the crawl orchestration and extraction engine of the
`chat-backend` repository (`scraping/scrapers.py`, `scraping/proxy_manager.py`).

The Python code is shallowly embedded: pure string manipulation is translated
to Lean functions over `String` / `List Char`; the pieces of the Python
standard library the code leans on (`urllib.parse.urlparse` / `urljoin`) are
modelled faithfully after CPython's implementation; network fetches are
abstracted into explicit parameters (a fetch outcome for one page, the list of
anchor hrefs of the seed page for discovery); `random.choice` is abstracted
into an oracle index.  Python `set` values whose iteration order the code
relies on are modelled as insertion-ordered duplicate-free lists.
-/

set_option maxRecDepth 10000

/-! ### Basic character/list utilities (models of Python `str` methods) -/

/-- Model of Python `str.lower` (ASCII case folding suffices here). -/
def lowerL (l : List Char) : List Char := l.map Char.toLower

/-- Model of Python `str.strip()` on a character list. -/
def trimL (l : List Char) : List Char :=
  ((l.dropWhile Char.isWhitespace).reverse.dropWhile Char.isWhitespace).reverse

/-- Model of Python `str.strip()` on strings. -/
def trimS (s : String) : String := ⟨trimL s.data⟩

/-- Model of Python substring containment (`needle in hay`). -/
def containsSub : List Char → List Char → Bool
  | n, [] => n.isEmpty
  | n, h :: t => n.isPrefixOf (h :: t) || containsSub n t

/-- Model of Python `str.split(c)`: splitting on every occurrence of `c`,
`"".split(c) = [""]`. -/
def splitOnChar (c : Char) : List Char → List (List Char)
  | [] => [[]]
  | x :: xs =>
    let r := splitOnChar c xs
    if x == c then [] :: r
    else
      match r with
      | [] => [[x]]
      | h :: t => (x :: h) :: t

/-- Model of Python `s.split(c, 1)` in the style the URL parser uses it:
the pair (text before the first `c`, text after it); when `c` is absent the
second component is empty and the first is all of `l`. -/
def splitAtCharFirst (c : Char) (l : List Char) : List Char × List Char :=
  (l.takeWhile (fun x => !(x == c)), (l.dropWhile (fun x => !(x == c))).drop 1)

/-- Model of Python `'/'.join(parts)` on character lists. -/
def joinSlash : List (List Char) → List Char
  | [] => []
  | [p] => p
  | p :: rest => p ++ '/' :: joinSlash rest

/-- Model of Python `base_url.rstrip('/')`. -/
def rstripSlash (s : String) : String :=
  ⟨(s.data.reverse.dropWhile (fun c => c == '/')).reverse⟩

/-! ### Model of `urllib.parse` (the parts the scraper uses)

The definitions below follow CPython's `urllib.parse.urlsplit` /
`urljoin` / `urlunsplit` (modulo the `params` component, which is empty for
every URL this code base manipulates, and the removal of unsafe bytes).
-/

/-- CPython `scheme_chars`: letters, digits, `+`, `-`, `.`. -/
def isSchemeChar (c : Char) : Bool :=
  c.isAlpha || c.isDigit || c == '+' || c == '-' || c == '.'

/-- Scheme splitting step of CPython `urlsplit`: if the text before the first
`:` is a well-formed scheme (first char a letter, all chars scheme chars),
return it lowercased together with the rest; otherwise no split. -/
def splitSchemeRest (l : List Char) : List Char × List Char :=
  match l.findIdx? (fun c => c == ':') with
  | none => ([], l)
  | some i =>
    if 0 < i ∧ (match l.head? with
                | some c => c.isAlpha
                | none => false) = true
         ∧ (l.take i).all isSchemeChar = true then
      (lowerL (l.take i), l.drop (i + 1))
    else ([], l)

/-- Characters that terminate the netloc in CPython `urlsplit`. -/
def isNetlocChar (c : Char) : Bool := !(c == '/' || c == '?' || c == '#')

/-- Netloc splitting step of CPython `urlsplit`: when the remainder starts
with `//`, the netloc runs up to the next `/`, `?` or `#`. -/
def splitNetlocRest (l : List Char) : List Char × List Char :=
  if l.take 2 = ['/', '/'] then
    ((l.drop 2).takeWhile isNetlocChar, (l.drop 2).dropWhile isNetlocChar)
  else ([], l)

/-- Parsed URL components (CPython `SplitResult`, without `params`). -/
structure UrlParts where
  scheme : List Char
  netloc : List Char
  path : List Char
  query : List Char
  fragment : List Char
deriving DecidableEq

/-- Model of CPython `urlsplit(url, scheme=default)` on character lists. -/
def urlparseWithL (default : List Char) (l : List Char) : UrlParts :=
  let sr := splitSchemeRest l
  let scheme := if sr.1 = [] then default else sr.1
  let nr := splitNetlocRest sr.2
  let fr := splitAtCharFirst '#' nr.2
  let qr := splitAtCharFirst '?' fr.1
  ⟨scheme, nr.1, qr.1, qr.2, fr.2⟩

/-- Model of CPython `urlparse` with empty default scheme. -/
def urlparseL (l : List Char) : UrlParts := urlparseWithL [] l

/-- The netloc component of a URL, as `urlparse(url).netloc` computes it. -/
def netlocOf (s : String) : String := ⟨(urlparseL s.data).netloc⟩

/-- The path component of a URL, as `urlparse(url).path` computes it. -/
def pathOf (s : String) : String := ⟨(urlparseL s.data).path⟩

/-- CPython `urlsplit` raises `ValueError("Invalid IPv6 URL")` exactly when
the netloc contains `[` without `]` or `]` without `[`.  This predicate marks
the inputs on which the modelled `urlparse` faults. -/
def urlparse_raises (s : String) : Bool :=
  let n := (urlparseL s.data).netloc
  (n.contains '[' && !(n.contains ']')) || (n.contains ']' && !(n.contains '['))

/-- CPython `uses_relative` scheme list. -/
def uses_relative : List String :=
  ["", "ftp", "http", "gopher", "nntp", "imap", "wais", "file", "https",
   "shttp", "mms", "prospero", "rtsp", "rtspu", "sftp", "svn", "svn+ssh",
   "ws", "wss"]

/-- CPython `uses_netloc` scheme list. -/
def uses_netloc : List String :=
  ["", "ftp", "http", "gopher", "nntp", "telnet", "imap", "wais", "file",
   "mms", "https", "shttp", "snews", "prospero", "rtsp", "rtspu", "rsync",
   "svn", "svn+ssh", "sftp", "nfs", "git", "git+ssh", "ws", "wss"]

/-- Membership of a scheme (as a character list) in one of the scheme pools. -/
def memScheme (s : List Char) (pool : List String) : Bool :=
  pool.any (fun t => t.data == s)

/-- Model of CPython `urlunsplit` on character lists. -/
def urlunsplitL (scheme netloc path query fragment : List Char) : List Char :=
  let url := path
  let url :=
    if netloc ≠ [] ∨ (url ≠ [] ∧ url.take 2 = ['/', '/']) then
      let url := if url ≠ [] ∧ url.head? ≠ some '/' then '/' :: url else url
      '/' :: '/' :: (netloc ++ url)
    else url
  let url := if scheme ≠ [] then scheme ++ ':' :: url else url
  let url := if query ≠ [] then url ++ '?' :: query else url
  if fragment ≠ [] then url ++ '#' :: fragment else url

/-- Middle-filtering step of CPython `urljoin`
(`segments[1:-1] = filter(None, segments[1:-1])`), applied to the tail of the
segment list: drops empty segments except the last one. -/
def filterInitSegs : List (List Char) → List (List Char)
  | [] => []
  | [a] => [a]
  | a :: rest => if a = [] then filterInitSegs rest else a :: filterInitSegs rest

/-- Model of CPython `urljoin(base, url)` on character lists. -/
def urljoinL (base url : List Char) : List Char :=
  if base = [] then url
  else if url = [] then base
  else
    let b := urlparseWithL [] base
    let u := urlparseWithL b.scheme url
    if ¬ (u.scheme = b.scheme ∧ memScheme u.scheme uses_relative = true) then url
    else if memScheme u.scheme uses_netloc = true ∧ u.netloc ≠ [] then
      urlunsplitL u.scheme u.netloc u.path u.query u.fragment
    else
      let netloc := if memScheme u.scheme uses_netloc = true then b.netloc else u.netloc
      if u.path = [] then
        let query := if u.query = [] then b.query else u.query
        urlunsplitL u.scheme netloc b.path query u.fragment
      else
        let base_parts := splitOnChar '/' b.path
        let base_parts :=
          if base_parts.getLast? ≠ some [] then base_parts.dropLast else base_parts
        let segments :=
          if u.path.head? = some '/' then splitOnChar '/' u.path
          else
            match base_parts ++ splitOnChar '/' u.path with
            | [] => []
            | a :: rest => a :: filterInitSegs rest
        let resolved := segments.foldl (fun acc seg =>
          if seg = ['.', '.'] then acc.dropLast
          else if seg = ['.'] then acc
          else acc ++ [seg]) []
        let resolved :=
          if segments.getLast? = some ['.'] ∨ segments.getLast? = some ['.', '.'] then
            resolved ++ [[]]
          else resolved
        let newPath := joinSlash resolved
        let newPath := if newPath = [] then ['/'] else newPath
        urlunsplitL u.scheme netloc newPath u.query u.fragment

/-- Model of CPython `urljoin` on strings. -/
def urljoin (base url : String) : String := ⟨urljoinL base.data url.data⟩

/-! ### `URLDiscoverer` (`scrapers.py`) -/

/-- The `skip_extensions` set of `URLDiscoverer._is_valid_url`. -/
def skip_extensions : List String :=
  [".pdf", ".jpg", ".jpeg", ".png", ".gif", ".css", ".js", ".xml"]

/-- The `skip_paths` set of `URLDiscoverer._is_valid_url`. -/
def skip_paths : List String :=
  ["wp-admin", "wp-content", "admin", "api", "assets", "static"]

/-- Embedding of `URLDiscoverer._is_valid_url`: rejects URLs whose parse
faults (the Python `try`/`except` returning `False`), whose netloc differs
from the seed's, whose lowercased text ends in a skipped extension, or whose
lowercased text contains a skipped path fragment. -/
def is_valid_url (url : String) (base_domain : String) : Bool :=
  if urlparse_raises url then false
  else if netlocOf url ≠ base_domain then false
  else if skip_extensions.any (fun ext => ext.data.isSuffixOf (lowerL url.data)) then false
  else if skip_paths.any (fun sp => containsSub sp.data (lowerL url.data)) then false
  else true

/-- The `common_paths` list of `URLDiscoverer.discover_urls`. -/
def common_paths : List String :=
  ["", "/about", "/about-us", "/services", "/products", "/contact",
   "/contact-us", "/blog", "/news", "/team", "/careers", "/pricing",
   "/features"]

/-- Insertion into the insertion-ordered list modelling the Python
`discovered_urls` set. -/
def insertDedup (acc : List String) (u : String) : List String :=
  if u ∈ acc then acc else acc ++ [u]

/-- The `common_paths` loop of `URLDiscoverer.discover_urls`: join each
well-known path against the stripped seed, keep it when the validity filter
passes.  The Python `set` is modelled as an insertion-ordered duplicate-free
list (`insertDedup`). -/
def discover_common (base_url : String) : List String :=
  common_paths.foldl (fun acc path =>
    if is_valid_url (urljoin (rstripSlash base_url) path) (netlocOf base_url) then
      insertDedup acc (urljoin (rstripSlash base_url) path)
    else acc) []

/-- The anchor loop of `discover_urls`.  `seed_links` abstracts the network
fetch of the seed page: `none` models a failed or non-200 response (the
`except` branch: the link loop is skipped), `some hrefs` models a 200
response whose anchor `href` attributes, in document order, are `hrefs`.
An href is added only while the set is below `max_pages`. -/
def discover_links (base_url : String) (seed_links : Option (List String))
    (max_pages : Nat) : List String :=
  match seed_links with
  | none => discover_common base_url
  | some hrefs => hrefs.foldl (fun acc href =>
      if is_valid_url (urljoin base_url href) (netlocOf base_url) ∧
          acc.length < max_pages then
        insertDedup acc (urljoin base_url href)
      else acc) (discover_common base_url)

/-- Embedding of `URLDiscoverer.discover_urls`: both gathering loops,
followed by the final `list(discovered_urls)[:max_pages]` truncation. -/
def discover_urls (base_url : String) (seed_links : Option (List String))
    (max_pages : Nat) : List String :=
  (discover_links base_url seed_links max_pages).take max_pages

/-! ### DOM model and `BasicScraper` (`scrapers.py`)

The parsed HTML document is modelled in first-child / next-sibling form so
that every traversal is plain structural recursion.  Pre-order traversal of
this representation is exactly BeautifulSoup's document order.
-/

/-- Parsed markup: a node is either nothing, a text node followed by its
siblings, or an element (tag, attributes, children) followed by its
siblings. -/
inductive Dom where
  | nil : Dom
  | text (s : String) (next : Dom) : Dom
  | elem (tag : String) (attrs : List (String × String)) (children : Dom) (next : Dom) : Dom

/-- First value of an attribute, as BeautifulSoup `tag.get(key)`. -/
def attrOf (attrs : List (String × String)) (k : String) : Option String :=
  (attrs.find? (fun kv => kv.1 == k)).map (fun kv => kv.2)

/-- Attributes of a found element (`Dom.elem` head), else empty. -/
def attrsOfDom : Dom → List (String × String)
  | .elem _ a _ _ => a
  | _ => []

/-- All descendant strings of a forest in document order (BeautifulSoup
`strings`). -/
def domTexts : Dom → List String
  | .nil => []
  | .text s next => s :: domTexts next
  | .elem _ _ ch next => domTexts ch ++ domTexts next

/-- First element (in document order) satisfying the tag/attribute test;
the match is returned detached from its siblings.  This is BeautifulSoup
`find` / soupsieve `select_one` restricted to the selectors the scraper
uses. -/
def findFirstElem (p : String → List (String × String) → Bool) : Dom → Option Dom
  | .nil => none
  | .text _ next => findFirstElem p next
  | .elem t a ch next =>
    if p t a then some (.elem t a ch .nil)
    else
      match findFirstElem p ch with
      | some e => some e
      | none => findFirstElem p next

/-- Removal of every `script` and `style` element with its subtree, the
embedding of `for script in soup(["script", "style"]): script.decompose()`. -/
def removeSS : Dom → Dom
  | .nil => .nil
  | .text s next => .text s (removeSS next)
  | .elem t a ch next =>
    if t == "script" || t == "style" then removeSS next
    else .elem t a (removeSS ch) (removeSS next)

/-- Whitespace-separated tokens of an attribute value (for CSS class
matching). -/
def splitWsTokens (s : String) : List String :=
  ((s.data.foldr (fun c acc =>
      if c.isWhitespace then [] :: acc
      else
        match acc with
        | [] => [[c]]
        | h :: t => (c :: h) :: t) []).filter (fun l => !l.isEmpty)).map
    (fun l => ⟨l⟩)

/-- The CSS selectors `BasicScraper._extract_main_content` probes: a tag
name, an exact attribute value (`[role="main"]`), or a class token. -/
inductive Selector where
  | tagSel (name : String) : Selector
  | attrEq (key value : String) : Selector
  | classSel (name : String) : Selector

/-- Whether one element matches a selector. -/
def matchesSel : Selector → String → List (String × String) → Bool
  | .tagSel name, t, _ => t == name
  | .attrEq k v, _, a => attrOf a k == some v
  | .classSel c, _, a =>
    match attrOf a "class" with
    | some s => (splitWsTokens s).contains c
    | none => false

/-- `select_one` for one selector. -/
def selectOneSel (s : Selector) (d : Dom) : Option Dom :=
  findFirstElem (matchesSel s) d

/-- The `main_selectors` priority list of `_extract_main_content`. -/
def main_selectors : List Selector :=
  [.tagSel "main", .attrEq "role" "main", .classSel "main-content",
   .classSel "content", .classSel "post-content", .classSel "entry-content",
   .tagSel "article", .classSel "container"]

/-- The selector loop with `break`: the first selector with a match wins,
even when the matched element's text turns out empty. -/
def findFirstSel : List Selector → Dom → Option Dom
  | [], _ => none
  | s :: rest, d =>
    match selectOneSel s d with
    | some e => some e
    | none => findFirstSel rest d

/-- BeautifulSoup `get_text(separator='\n', strip=True)`: every descendant
string stripped, empties dropped, joined by newlines. -/
def elemTextNL (e : Dom) : String :=
  String.intercalate "\n" (((domTexts e).map trimS).filter (fun s => !(s == "")))

/-- Final text clean-up of `_extract_main_content`: split on newlines, strip
each line, drop empty lines, rejoin. -/
def clean_lines (s : String) : String :=
  String.intercalate "\n"
    ((((splitOnChar '\n' s.data).map (fun l => (⟨trimL l⟩ : String)))).filter
      (fun t => !(t == "")))

/-- Embedding of `BasicScraper._extract_main_content` (called on the soup
after script/style removal): probe the selector priority list, fall back to
the `body` text when no selector matched or the match's text is empty, then
clean the lines. -/
def extract_main_content (soup : Dom) : String :=
  let content_text :=
    match findFirstSel main_selectors soup with
    | some e => elemTextNL e
    | none => ""
  let content_text :=
    if content_text == "" then
      match findFirstElem (fun t _ => t == "body") soup with
      | some b => elemTextNL b
      | none => content_text
    else content_text
  clean_lines content_text

/-- The full body-extraction pipeline of `scrape_page` on a parsed document:
script/style removal followed by `_extract_main_content`. -/
def extractBody (doc : Dom) : String := extract_main_content (removeSS doc)

/-- Embedding of the `ScrapedPage` dataclass. -/
structure ScrapedPage where
  url : String
  title : String
  description : String
  content : String
  success : Bool
  error_message : String
deriving DecidableEq

/-- Outcome of `self.session.get(url, timeout=10)`: either a raised
exception (network error, timeout, parse fault — anything the `except`
clause would catch carrying message `msg`), or an HTTP response with status
code, reason phrase and parsed body. -/
inductive FetchOutcome where
  | exc (msg : String) : FetchOutcome
  | resp (status : Nat) (reason : String) (doc : Dom) : FetchOutcome

/-- The message of the `requests.HTTPError` that `raise_for_status` raises
for a status in [400, 600). -/
def raise_for_status_msg (status : Nat) (reason url : String) : String :=
  toString status ++
    (if status < 500 then " Client Error: " else " Server Error: ") ++
    reason ++ " for url: " ++ url

/-- Embedding of `BasicScraper.scrape_page`: the `try` body on a response
(`raise_for_status`, title, meta description, script/style removal, main
content), the `except` branch turning any fault into a failed page with
empty fields. -/
def scrape_page (url : String) (o : FetchOutcome) : ScrapedPage :=
  match o with
  | .exc msg => ⟨url, "", "", "", false, msg⟩
  | .resp status reason doc =>
    if 400 ≤ status ∧ status < 600 then
      ⟨url, "", "", "", false, raise_for_status_msg status reason url⟩
    else
      let title :=
        match findFirstElem (fun t _ => t == "title") doc with
        | some e => trimS (String.join (domTexts e))
        | none => ""
      let description :=
        match findFirstElem
            (fun t a => t == "meta" && attrOf a "name" == some "description") doc with
        | some e => trimS ((attrOf (attrsOfDom e) "content").getD "")
        | none => ""
      let content := extract_main_content (removeSS doc)
      ⟨url, title, description, content, true, ""⟩

/-- Whether a fetch outcome is a per-page fault: a raised exception, or a
status `raise_for_status` turns into an `HTTPError`. -/
def fault_of : FetchOutcome → Bool
  | .exc _ => true
  | .resp s _ _ => decide (400 ≤ s ∧ s < 600)

/-- The error message a fault carries into the failed `ScrapedPage`. -/
def fault_message (url : String) : FetchOutcome → String
  | .exc m => m
  | .resp s r _ => raise_for_status_msg s r url

/-! ### `AdvancedCrawlService.crawl_website` (`scrapers.py`) -/

/-- One entry of the `pages` list the crawl accumulates. -/
structure PageRecord where
  url : String
  title : String
  description : String
  content : String
deriving DecidableEq

/-- The dictionary `crawl_website` returns; absent keys are `none`. -/
structure CrawlResult where
  success : Bool
  error : Option String := none
  pages : Option (List PageRecord) := none
  total_pages : Option Nat := none
  urls_discovered : Option Nat := none
deriving DecidableEq

/-- The page-accumulation loop of `crawl_website` (basic-scraper branch):
successful pages in attempt order, failures skipped.  `scrape` abstracts
`self.basic_scraper.scrape_page`. -/
def crawl_pages (scrape : String → ScrapedPage) : List String → List PageRecord
  | [] => []
  | u :: rest =>
    let r := scrape u
    if r.success then
      ⟨r.url, r.title, r.description, r.content⟩ :: crawl_pages scrape rest
    else crawl_pages scrape rest

/-- The URLs `crawl_website` hands to the scraper, in order: none when
discovery came back empty (the early return precedes the loop), otherwise
every discovered URL. -/
def crawl_fetch_attempts (url : String) (seed_links : Option (List String))
    (max_pages : Nat) : List String :=
  let urls := discover_urls url seed_links max_pages
  if urls = [] then [] else urls

/-- Embedding of `AdvancedCrawlService.crawl_website` with
`use_playwright=False`: discovery, the empty-discovery early return, the
scrape loop, the all-failed return, and the success dictionary. -/
def crawl_website (url : String) (seed_links : Option (List String))
    (max_pages : Nat) (scrape : String → ScrapedPage) : CrawlResult :=
  if discover_urls url seed_links max_pages = [] then
    { success := false, error := some "No valid URLs discovered" }
  else if crawl_pages scrape (discover_urls url seed_links max_pages) = [] then
    { success := false, error := some "Failed to scrape any pages successfully" }
  else
    { success := true,
      pages := some (crawl_pages scrape (discover_urls url seed_links max_pages)),
      total_pages := some (crawl_pages scrape (discover_urls url seed_links max_pages)).length,
      urls_discovered := some (discover_urls url seed_links max_pages).length }

/-! ### `ProxyRotator` (`proxy_manager.py`) -/

/-- The `{'http': ..., 'https': ...}` dictionary `get_next_proxy` returns. -/
structure ProxyDict where
  http : String
  https : String
deriving DecidableEq

/-- State of `ProxyRotator`: the configured proxy list and the set of failed
indices (modelled as a duplicate-free list). -/
structure ProxyRotator where
  proxies : List String
  failed_proxies : List Nat
deriving DecidableEq

/-- The comprehension `[p for i, p in enumerate(self.proxies) if i not in
self.failed_proxies]`, with `i` starting at `start`. -/
def availableFrom (proxies : List String) (failed : List Nat) (start : Nat) :
    List String :=
  match proxies with
  | [] => []
  | p :: ps =>
    if start ∈ failed then availableFrom ps failed (start + 1)
    else p :: availableFrom ps failed (start + 1)

/-- Embedding of `ProxyRotator.get_next_proxy`.  `pick` is the randomness
oracle: `random.choice(available)` is modelled as indexing `available` at
`pick mod len(available)`.  Returns the chosen proxy dictionary (or `None`)
together with the successor state, since the starvation branch clears
`failed_proxies`. -/
def get_next_proxy (r : ProxyRotator) (pick : Nat) :
    Option ProxyDict × ProxyRotator :=
  if r.proxies = [] then (none, r)
  else if availableFrom r.proxies r.failed_proxies 0 = [] then
    (some ⟨r.proxies.getD (pick % r.proxies.length) "",
           r.proxies.getD (pick % r.proxies.length) ""⟩,
     { r with failed_proxies := [] })
  else
    (some ⟨(availableFrom r.proxies r.failed_proxies 0).getD
             (pick % (availableFrom r.proxies r.failed_proxies 0).length) "",
           (availableFrom r.proxies r.failed_proxies 0).getD
             (pick % (availableFrom r.proxies r.failed_proxies 0).length) ""⟩,
     r)

/-- Embedding of `ProxyRotator.mark_proxy_failed`: add the index of the
first occurrence of the proxy to the failed set; the `ValueError` of
`list.index` on an unknown proxy is swallowed (`no-op`). -/
def mark_proxy_failed (r : ProxyRotator) (proxy_url : String) : ProxyRotator :=
  match r.proxies.findIdx? (fun p => p == proxy_url) with
  | some i =>
    if i ∈ r.failed_proxies then r
    else { r with failed_proxies := r.failed_proxies ++ [i] }
  | none => r


/-! ### Concrete inputs used by witnesses and counterexamples -/

/-- Scraper stub succeeding on every URL. -/
def scrape_all_ok : String → ScrapedPage :=
  fun u => ⟨u, "T", "D", "C", true, ""⟩

/-- Scraper stub failing on every URL (a per-page connection fault). -/
def scrape_all_fail : String → ScrapedPage :=
  fun u => ⟨u, "", "", "", false, "connection error"⟩

/-- Scraper stub failing exactly on the seed root and on `/about`. -/
def scrape_two_fail : String → ScrapedPage :=
  fun u =>
    if u == "https://example.com" || u == "https://example.com/about" then
      ⟨u, "", "", "", false, "connection error"⟩
    else ⟨u, "T", "D", "C", true, ""⟩

/-- A `.content` element whose text is non-empty, detached from siblings. -/
def content_div_alpha : Dom :=
  .elem "div" [("class", "content")] (.text " alpha " .nil) .nil

/-- Document holding a non-empty `.content` element followed by an
`article` element with different text. -/
def doc_alpha : Dom :=
  .elem "body" []
    (.elem "div" [("class", "content")] (.text " alpha " .nil)
      (.elem "article" [] (.text "beta" .nil) .nil)) .nil

/-- Document holding a `.content` element with empty text and an `article`
element with text `hello`. -/
def doc_empty_content : Dom :=
  .elem "html" [] (.elem "body" []
    (.elem "div" [("class", "content")] .nil
      (.elem "article" [] (.text "hello" .nil) .nil)) .nil) .nil

/-- Rotator state with two configured proxies, both marked failed. -/
def rotator_all_failed : ProxyRotator := ⟨["http://p1", "http://p2"], [0, 1]⟩

/-- The candidate URLs that well-known-path probing produces for the seed
`https://example.com`: each entry of `common_paths` joined against the
stripped seed, as in the first loop of `discover_urls`. -/
def wellknown_candidates : List String :=
  common_paths.map (fun p => urljoin (rstripSlash "https://example.com") p)

/-! ### Helper lemmas -/

theorem crawl_pages_length (scrape : String → ScrapedPage) (urls : List String) :
    (crawl_pages scrape urls).length =
      (urls.filter (fun u => (scrape u).success)).length := by
  induction urls with
  | nil => rfl
  | cons u rest ih =>
    simp only [crawl_pages, List.filter_cons]
    cases h : (scrape u).success <;> simp [h, ih]

theorem crawl_pages_nil_of_all_fail (scrape : String → ScrapedPage)
    (urls : List String) (h : ∀ u ∈ urls, (scrape u).success = false) :
    crawl_pages scrape urls = [] := by
  induction urls with
  | nil => rfl
  | cons u rest ih =>
    have hu := h u (List.mem_cons_self u rest)
    simp only [crawl_pages, hu]
    exact ih (fun x hx => h x (List.mem_cons_of_mem _ hx))

theorem mem_insertDedup {acc : List String} {u x : String}
    (h : x ∈ insertDedup acc u) : x ∈ acc ∨ x = u := by
  unfold insertDedup at h
  split at h
  · exact Or.inl h
  · rcases List.mem_append.mp h with h1 | h1
    · exact Or.inl h1
    · exact Or.inr (List.mem_singleton.mp h1)

theorem nodup_insertDedup {acc : List String} {u : String} (h : acc.Nodup) :
    (insertDedup acc u).Nodup := by
  unfold insertDedup
  split
  · exact h
  · rename_i hmem
    refine List.nodup_append.mpr ⟨h, List.nodup_singleton u, ?_⟩
    intro x hx hx1
    rw [List.mem_singleton] at hx1
    subst hx1
    exact hmem hx

theorem foldl_mem_inv {β : Type} (f : List String → β → List String)
    (P : String → Prop)
    (hf : ∀ acc a x, x ∈ f acc a → x ∈ acc ∨ P x) :
    ∀ (l : List β) (acc : List String), (∀ x ∈ acc, P x) →
      ∀ x ∈ List.foldl f acc l, P x := by
  intro l
  induction l with
  | nil => intro acc hacc x hx; exact hacc x hx
  | cons a rest ih =>
    intro acc hacc x hx
    refine ih (f acc a) ?_ x hx
    intro y hy
    rcases hf acc a y hy with h | h
    · exact hacc y h
    · exact h

theorem foldl_nodup_inv {β : Type} (f : List String → β → List String)
    (hf : ∀ acc a, acc.Nodup → (f acc a).Nodup) :
    ∀ (l : List β) (acc : List String), acc.Nodup → (List.foldl f acc l).Nodup := by
  intro l
  induction l with
  | nil => intro acc hacc; exact hacc
  | cons a rest ih => intro acc hacc; exact ih (f acc a) (hf acc a hacc)

theorem mem_discover_common_valid {base : String} {x : String}
    (h : x ∈ discover_common base) :
    is_valid_url x (netlocOf base) = true := by
  unfold discover_common at h
  refine foldl_mem_inv _ (fun y => is_valid_url y (netlocOf base) = true)
    ?_ common_paths [] (by intro y hy; cases hy) x h
  intro acc a y hy
  split at hy
  · rename_i hvalid
    rcases mem_insertDedup hy with h1 | h1
    · exact Or.inl h1
    · subst h1; exact Or.inr hvalid
  · exact Or.inl hy

theorem mem_discover_links_valid {base : String} {p : Option (List String)}
    {m : Nat} {x : String} (h : x ∈ discover_links base p m) :
    is_valid_url x (netlocOf base) = true := by
  unfold discover_links at h
  cases p with
  | none => exact mem_discover_common_valid h
  | some hrefs =>
    refine foldl_mem_inv _ (fun y => is_valid_url y (netlocOf base) = true)
      ?_ hrefs (discover_common base)
      (fun y hy => mem_discover_common_valid hy) x h
    intro acc a y hy
    split at hy
    · rename_i hcond
      rcases mem_insertDedup hy with h1 | h1
      · exact Or.inl h1
      · subst h1; exact Or.inr hcond.1
    · exact Or.inl hy

theorem mem_discover_valid {base : String} {p : Option (List String)}
    {m : Nat} {x : String} (h : x ∈ discover_urls base p m) :
    is_valid_url x (netlocOf base) = true :=
  mem_discover_links_valid (List.mem_of_mem_take h)

theorem discover_common_nodup (base : String) : (discover_common base).Nodup := by
  unfold discover_common
  refine foldl_nodup_inv _ ?_ common_paths [] List.nodup_nil
  intro acc a hacc
  split
  · exact nodup_insertDedup hacc
  · exact hacc

theorem discover_links_nodup (base : String) (p : Option (List String))
    (m : Nat) : (discover_links base p m).Nodup := by
  unfold discover_links
  cases p with
  | none => exact discover_common_nodup base
  | some hrefs =>
    refine foldl_nodup_inv _ ?_ hrefs (discover_common base)
      (discover_common_nodup base)
    intro acc a hacc
    dsimp only
    split
    · exact nodup_insertDedup hacc
    · exact hacc

theorem is_valid_spec {u bd : String} (h : is_valid_url u bd = true) :
    urlparse_raises u = false ∧ netlocOf u = bd ∧
    (∀ ext ∈ skip_extensions, ext.data.isSuffixOf (lowerL u.data) = false) ∧
    (∀ sp ∈ skip_paths, containsSub sp.data (lowerL u.data) = false) := by
  unfold is_valid_url at h
  by_cases h1 : urlparse_raises u = true
  · rw [if_pos h1] at h; exact Bool.noConfusion h
  · rw [if_neg h1] at h
    by_cases h2 : netlocOf u ≠ bd
    · rw [if_pos h2] at h; exact Bool.noConfusion h
    · rw [if_neg h2] at h
      by_cases h3 : (skip_extensions.any
          (fun ext => ext.data.isSuffixOf (lowerL u.data))) = true
      · rw [if_pos h3] at h; exact Bool.noConfusion h
      · rw [if_neg h3] at h
        by_cases h4 : (skip_paths.any
            (fun sp => containsSub sp.data (lowerL u.data))) = true
        · rw [if_pos h4] at h; exact Bool.noConfusion h
        · simp only [Bool.not_eq_true] at h1
          simp only [Bool.not_eq_true, List.any_eq_false] at h3 h4
          refine ⟨h1, not_not.mp h2, ?_, ?_⟩
          · intro ext hext
            simpa using h3 ext hext
          · intro sp hsp
            simpa using h4 sp hsp

theorem isPrefixOf_append_ext {n l s : List Char}
    (h : n.isPrefixOf l = true) : n.isPrefixOf (l ++ s) = true := by
  induction n generalizing l with
  | nil => simp [List.isPrefixOf]
  | cons a n ih =>
    cases l with
    | nil => simp [List.isPrefixOf] at h
    | cons b l2 =>
      simp only [List.cons_append, List.isPrefixOf, Bool.and_eq_true] at h ⊢
      exact ⟨h.1, ih h.2⟩

theorem containsSub_nil_left (hay : List Char) : containsSub [] hay = true := by
  cases hay <;> simp [containsSub, List.isPrefixOf, List.isEmpty]

theorem containsSub_append_right {n b : List Char} (c : List Char)
    (h : containsSub n b = true) : containsSub n (b ++ c) = true := by
  induction b with
  | nil =>
    have hn : n = [] := by
      cases n with
      | nil => rfl
      | cons x xs => simp [containsSub, List.isEmpty] at h
    subst hn
    exact containsSub_nil_left _
  | cons x xs ih =>
    simp only [containsSub, Bool.or_eq_true] at h
    simp only [List.cons_append, containsSub, Bool.or_eq_true]
    rcases h with h | h
    · left
      have := isPrefixOf_append_ext (s := c) h
      simpa using this
    · right; exact ih h

theorem containsSub_append_left {n t : List Char} (a : List Char)
    (h : containsSub n t = true) : containsSub n (a ++ t) = true := by
  induction a with
  | nil => simpa using h
  | cons x xs ih =>
    simp only [List.cons_append, containsSub, Bool.or_eq_true]
    right; exact ih

theorem containsSub_false_of_surround {n a b c : List Char}
    (h : containsSub n (a ++ b ++ c) = false) : containsSub n b = false := by
  cases hb : containsSub n b
  · rfl
  · exfalso
    have h1 : containsSub n (b ++ c) = true := containsSub_append_right c hb
    have h2 : containsSub n (a ++ (b ++ c)) = true := containsSub_append_left a h1
    rw [← List.append_assoc] at h2
    rw [h2] at h
    exact Bool.noConfusion h

theorem splitSchemeRest_snd_decomp (l : List Char) :
    ∃ pre, l = pre ++ (splitSchemeRest l).2 := by
  rcases hf : l.findIdx? (fun c => c == ':') with _ | i
  · exact ⟨[], by simp [splitSchemeRest, hf]⟩
  · simp only [splitSchemeRest, hf]
    split
    · exact ⟨l.take (i + 1), (List.take_append_drop (i + 1) l).symm⟩
    · exact ⟨[], rfl⟩

theorem splitNetlocRest_snd_decomp (l : List Char) :
    ∃ pre, l = pre ++ (splitNetlocRest l).2 := by
  unfold splitNetlocRest
  split
  · refine ⟨l.take 2 ++ (l.drop 2).takeWhile isNetlocChar, ?_⟩
    conv_lhs => rw [← List.take_append_drop 2 l]
    conv_lhs => rw [← List.takeWhile_append_dropWhile isNetlocChar (l.drop 2)]
    simp [List.append_assoc]
  · exact ⟨[], rfl⟩

theorem splitAtCharFirst_fst_decomp (c : Char) (l : List Char) :
    ∃ suf, l = (splitAtCharFirst c l).1 ++ suf :=
  ⟨l.dropWhile (fun x => !(x == c)),
   (List.takeWhile_append_dropWhile (fun x => !(x == c)) l).symm⟩

theorem urlparse_path_decomp (d l : List Char) :
    ∃ pre suf, l = pre ++ (urlparseWithL d l).path ++ suf := by
  obtain ⟨p1, h1⟩ := splitSchemeRest_snd_decomp l
  obtain ⟨p2, h2⟩ := splitNetlocRest_snd_decomp (splitSchemeRest l).2
  obtain ⟨s1, h3⟩ :=
    splitAtCharFirst_fst_decomp '#' (splitNetlocRest (splitSchemeRest l).2).2
  obtain ⟨s2, h4⟩ :=
    splitAtCharFirst_fst_decomp '?'
      (splitAtCharFirst '#' (splitNetlocRest (splitSchemeRest l).2).2).1
  refine ⟨p1 ++ p2, s2 ++ s1, ?_⟩
  have hpath : (urlparseWithL d l).path =
      (splitAtCharFirst '?'
        (splitAtCharFirst '#' (splitNetlocRest (splitSchemeRest l).2).2).1).1 := rfl
  rw [hpath]
  refine Eq.trans h1 ?_
  conv_lhs => rw [h2]
  conv_lhs => rw [h3]
  conv_lhs => rw [h4]
  simp [List.append_assoc]

theorem containsSub_lower_path_false {n : List Char} {s : String}
    (h : containsSub n (lowerL s.data) = false) :
    containsSub n (lowerL (pathOf s).data) = false := by
  obtain ⟨pre, suf, hdec⟩ := urlparse_path_decomp [] s.data
  have hsplit : lowerL s.data =
      lowerL pre ++ lowerL (urlparseWithL [] s.data).path ++ lowerL suf := by
    conv_lhs => rw [hdec]
    simp [lowerL, List.map_append]
  rw [hsplit] at h
  exact containsSub_false_of_surround h

theorem availableFrom_subset {proxies : List String} {failed : List Nat}
    {start : Nat} {x : String}
    (h : x ∈ availableFrom proxies failed start) : x ∈ proxies := by
  induction proxies generalizing start with
  | nil => simp [availableFrom] at h
  | cons p ps ih =>
    simp only [availableFrom] at h
    split at h
    · exact List.mem_cons_of_mem _ (ih h)
    · rcases List.mem_cons.mp h with h1 | h1
      · subst h1; exact List.mem_cons_self _ _
      · exact List.mem_cons_of_mem _ (ih h1)

theorem availableFrom_eq_nil {proxies : List String} {failed : List Nat}
    {start : Nat} (h : ∀ k, k < proxies.length → (start + k) ∈ failed) :
    availableFrom proxies failed start = [] := by
  induction proxies generalizing start with
  | nil => rfl
  | cons p ps ih =>
    have h0 : start ∈ failed := by simpa using h 0 (by simp)
    simp only [availableFrom, if_pos h0]
    refine ih ?_
    intro k hk
    have heq : (start + 1) + k = start + (k + 1) := by omega
    rw [heq]
    exact h (k + 1) (by simpa using Nat.succ_lt_succ hk)

theorem getD_mod_mem {l : List String} (h : l ≠ []) (k : Nat) :
    l.getD (k % l.length) "" ∈ l := by
  have hpos : 0 < l.length := List.length_pos.mpr h
  have hlt : k % l.length < l.length := Nat.mod_lt _ hpos
  rw [List.getD_eq_getElem l "" hlt]
  exact List.getElem_mem hlt

/-! ### Claim theorems -/

/-- C1: for a crawl whose discovery yields 5 candidates and whose fetches
succeed on exactly 3 of them, `crawl_website` reports success with exactly
the 3 successful pages (`total_pages = 3`), `urls_discovered = 5`, and the
failed pages are skipped without aborting the batch (all 5 candidates are
attempted). -/
theorem C1_partial_failure_aggregation
    (url : String) (seed_links : Option (List String)) (max_pages : Nat)
    (scrape : String → ScrapedPage)
    (h5 : (discover_urls url seed_links max_pages).length = 5)
    (h3 : ((discover_urls url seed_links max_pages).filter
        (fun u => (scrape u).success)).length = 3) :
    (crawl_website url seed_links max_pages scrape).success = true ∧
    (crawl_website url seed_links max_pages scrape).pages =
      some (crawl_pages scrape (discover_urls url seed_links max_pages)) ∧
    (crawl_pages scrape (discover_urls url seed_links max_pages)).length = 3 ∧
    (crawl_website url seed_links max_pages scrape).total_pages = some 3 ∧
    (crawl_website url seed_links max_pages scrape).urls_discovered = some 5 ∧
    crawl_fetch_attempts url seed_links max_pages =
      discover_urls url seed_links max_pages := by
  have hne : discover_urls url seed_links max_pages ≠ [] := by
    intro hnil
    rw [hnil] at h5
    exact absurd h5 (by decide)
  have hlen : (crawl_pages scrape (discover_urls url seed_links max_pages)).length = 3 := by
    rw [crawl_pages_length]
    exact h3
  have hpne : crawl_pages scrape (discover_urls url seed_links max_pages) ≠ [] := by
    intro hnil
    rw [hnil] at hlen
    exact absurd hlen (by decide)
  refine ⟨?_, ?_, hlen, ?_, ?_, ?_⟩
  · unfold crawl_website
    rw [if_neg hne, if_neg hpne]
  · unfold crawl_website
    rw [if_neg hne, if_neg hpne]
  · unfold crawl_website
    rw [if_neg hne, if_neg hpne]
    simpa using hlen
  · unfold crawl_website
    rw [if_neg hne, if_neg hpne]
    simpa using h5
  · unfold crawl_fetch_attempts
    rw [if_neg hne]

/-- C1 witness: seed `https://example.com` with page cap 5 discovers the
first five well-known candidates; `scrape_two_fail` fails on two of them
and succeeds on three, and the crawl aggregates exactly those three. -/
theorem C1_partial_failure_aggregation_witness :
    (discover_urls "https://example.com" (some []) 5).length = 5 ∧
    ((discover_urls "https://example.com" (some []) 5).filter
        (fun u => (scrape_two_fail u).success)).length = 3 ∧
    (crawl_website "https://example.com" (some []) 5 scrape_two_fail).success = true ∧
    (crawl_website "https://example.com" (some []) 5 scrape_two_fail).total_pages = some 3 ∧
    (crawl_website "https://example.com" (some []) 5 scrape_two_fail).urls_discovered = some 5 :=
  ⟨by decide, by decide,
   (C1_partial_failure_aggregation "https://example.com" (some []) 5
      scrape_two_fail (by decide) (by decide)).1,
   (C1_partial_failure_aggregation "https://example.com" (some []) 5
      scrape_two_fail (by decide) (by decide)).2.2.2.1,
   (C1_partial_failure_aggregation "https://example.com" (some []) 5
      scrape_two_fail (by decide) (by decide)).2.2.2.2.1⟩

/-- C2 counterexample: with every fetch failing, the error string the code
returns is `Failed to scrape any pages successfully` (capital `F`), so it is
not equal to the claimed `failed to scrape any pages successfully`. -/
theorem C2_total_failure_counterexample :
    ¬ ((crawl_website "https://example.com" (some []) 5 scrape_all_fail).error =
        some "failed to scrape any pages successfully") ∧
    (crawl_website "https://example.com" (some []) 5 scrape_all_fail).error =
      some "Failed to scrape any pages successfully" :=
  ⟨by decide, by decide⟩

/-- C2 (amended): when at least one candidate is discovered and every
per-page fetch fails, `crawl_website` returns `success = false` with the
non-empty error string `Failed to scrape any pages successfully` and no
pages recorded. -/
theorem C2_total_failure (url : String) (seed_links : Option (List String))
    (max_pages : Nat) (scrape : String → ScrapedPage)
    (hne : discover_urls url seed_links max_pages ≠ [])
    (hfail : ∀ u ∈ discover_urls url seed_links max_pages,
      (scrape u).success = false) :
    crawl_website url seed_links max_pages scrape =
      { success := false,
        error := some "Failed to scrape any pages successfully" } ∧
    crawl_pages scrape (discover_urls url seed_links max_pages) = [] ∧
    ("Failed to scrape any pages successfully" : String) ≠ "" := by
  have hp : crawl_pages scrape (discover_urls url seed_links max_pages) = [] :=
    crawl_pages_nil_of_all_fail scrape _ hfail
  refine ⟨?_, hp, by decide⟩
  unfold crawl_website
  rw [if_neg hne, if_pos hp]

/-- C2 witness: the amended theorem applied to seed `https://example.com`
with cap 5 and the always-failing scraper. -/
theorem C2_total_failure_witness :
    (discover_urls "https://example.com" (some []) 5 ≠ []) ∧
    (∀ u ∈ discover_urls "https://example.com" (some []) 5,
      (scrape_all_fail u).success = false) ∧
    crawl_website "https://example.com" (some []) 5 scrape_all_fail =
      { success := false,
        error := some "Failed to scrape any pages successfully" } :=
  ⟨by decide, by decide,
   (C2_total_failure "https://example.com" (some []) 5 scrape_all_fail
      (by decide) (by decide)).1⟩

/-- C3 counterexample: with zero candidates discovered the code returns the
error string `No valid URLs discovered` (capital `N`), not the claimed
`no valid URLs discovered`. -/
theorem C3_discovery_failure_counterexample :
    discover_urls "https://api.example.com" (some []) 10 = [] ∧
    ¬ ((crawl_website "https://api.example.com" (some []) 10 scrape_all_ok).error =
        some "no valid URLs discovered") ∧
    (crawl_website "https://api.example.com" (some []) 10 scrape_all_ok).error =
      some "No valid URLs discovered" :=
  ⟨by decide, by decide, by decide⟩

/-- C3 (amended): when discovery returns zero candidates, `crawl_website`
fails with the error string `No valid URLs discovered`, attempts no page
fetch (for any scraper), and that error is distinct from the total-fetch-
failure error. -/
theorem C3_discovery_failure (url : String) (seed_links : Option (List String))
    (max_pages : Nat) (scrape : String → ScrapedPage)
    (hd : discover_urls url seed_links max_pages = []) :
    crawl_website url seed_links max_pages scrape =
      { success := false, error := some "No valid URLs discovered" } ∧
    crawl_fetch_attempts url seed_links max_pages = [] ∧
    ("No valid URLs discovered" : String) ≠
      "Failed to scrape any pages successfully" := by
  refine ⟨?_, ?_, by decide⟩
  · unfold crawl_website
    rw [if_pos hd]
  · unfold crawl_fetch_attempts
    rw [if_pos hd]

/-- C3 witness: the amended theorem applied to seed
`https://api.example.com`, whose candidates all contain the skipped
fragment `api` and are therefore all rejected. -/
theorem C3_discovery_failure_witness :
    discover_urls "https://api.example.com" (some []) 10 = [] ∧
    (crawl_website "https://api.example.com" (some []) 10 scrape_all_ok =
      { success := false, error := some "No valid URLs discovered" } ∧
     crawl_fetch_attempts "https://api.example.com" (some []) 10 = [] ∧
     ("No valid URLs discovered" : String) ≠
       "Failed to scrape any pages successfully") :=
  ⟨by decide,
   C3_discovery_failure "https://api.example.com" (some []) 10 scrape_all_ok
     (by decide)⟩

/-- C7: the discovered list is duplicate-free and holds at most
`max_pages` entries, for every seed, seed-page outcome and cap. -/
theorem C7_discover_dedup_bounded (base : String)
    (seed_links : Option (List String)) (max_pages : Nat) :
    (discover_urls base seed_links max_pages).Nodup ∧
    (discover_urls base seed_links max_pages).length ≤ max_pages :=
  ⟨List.Sublist.nodup (List.take_sublist max_pages _)
     (discover_links_nodup base seed_links max_pages),
   List.length_take_le max_pages _⟩

/-- C9 counterexample: in the scenario of the claim (seed
`https://example.com`, cap 3, static strategy), well-known-path probing
does not yield exactly the candidates `/`, `/about`, `/contact`: the
candidate set holds 13 URLs, among them `https://example.com/services`.
Membership and size of this set are independent of the set's iteration
order, so these are determinate facts of the source. -/
theorem C9_scenario_counterexample :
    ("https://example.com/services" ∈
        discover_links "https://example.com" (some ["/new-page"]) 3) ∧
    ("https://example.com/services" ∉
        ["https://example.com", "https://example.com/about",
         "https://example.com/contact"]) ∧
    (discover_links "https://example.com" (some ["/new-page"]) 3).length = 13 :=
  ⟨by decide, by decide, by decide⟩

/-- C9 (amended): for seed `https://example.com` with cap 3, the candidate
set gathered before truncation is exactly the 13 well-known candidates (the
seed-page link adds nothing, the cap being reached), and for EVERY
iteration order of that set — the Python set's order is unspecified — the
truncated list the orchestrator fetches has exactly 3 entries, pairwise
distinct, each one of the 13 well-known candidates.  Which 3 and in which
order is decided by the unspecified iteration order, so the claimed
sequence `/`, `/about`, `/contact` is possible but not guaranteed. -/
theorem C9_scenario_order :
    (∀ u ∈ discover_links "https://example.com" (some ["/new-page"]) 3,
        u ∈ wellknown_candidates) ∧
    (∀ u ∈ wellknown_candidates,
        u ∈ discover_links "https://example.com" (some ["/new-page"]) 3) ∧
    ∀ order : List String,
      order.Perm (discover_links "https://example.com" (some ["/new-page"]) 3) →
      ((order.take 3).length = 3 ∧
       (order.take 3).Nodup ∧
       ∀ u ∈ order.take 3, u ∈ wellknown_candidates) := by
  refine ⟨by decide, by decide, ?_⟩
  intro order hperm
  have hlen : order.length = 13 := by
    rw [List.Perm.length_eq hperm]
    decide
  refine ⟨?_, ?_, ?_⟩
  · rw [List.length_take, hlen]
    decide
  · refine List.Sublist.nodup (List.take_sublist 3 order) ?_
    exact (List.Perm.nodup_iff hperm).mpr
      (discover_links_nodup "https://example.com" (some ["/new-page"]) 3)
  · intro u hu
    have h1 : u ∈ order := List.mem_of_mem_take hu
    have h2 : u ∈ discover_links "https://example.com" (some ["/new-page"]) 3 :=
      (List.Perm.mem_iff hperm).mp h1
    have hsub : ∀ x ∈ discover_links "https://example.com" (some ["/new-page"]) 3,
        x ∈ wellknown_candidates := by decide
    exact hsub u h2

/-- C9 witness: the amended theorem applied to a concrete iteration order
different from the model's insertion order — the reversed enumeration of
the candidate set — whose first three entries still number exactly 3, are
pairwise distinct, and are well-known candidates. -/
theorem C9_scenario_order_witness :
    ((discover_links "https://example.com" (some ["/new-page"]) 3).reverse.Perm
        (discover_links "https://example.com" (some ["/new-page"]) 3)) ∧
    (((discover_links "https://example.com" (some ["/new-page"]) 3).reverse.take 3).length = 3 ∧
     ((discover_links "https://example.com" (some ["/new-page"]) 3).reverse.take 3).Nodup ∧
     ∀ u ∈ (discover_links "https://example.com" (some ["/new-page"]) 3).reverse.take 3,
       u ∈ wellknown_candidates) :=
  ⟨List.reverse_perm _,
   C9_scenario_order.2.2
     (discover_links "https://example.com" (some ["/new-page"]) 3).reverse
     (List.reverse_perm _)⟩

/-- C10: the validity filter is a total function, and any URL on which the
modelled `urlparse` faults (the `except` branch of `_is_valid_url`) is
rejected rather than propagating the fault. -/
theorem C10_filter_total_on_fault (url bd : String)
    (h : urlparse_raises url = true) : is_valid_url url bd = false := by
  unfold is_valid_url
  rw [if_pos h]

/-- C10 witness: `http://[::1` has `[` without `]` in its netloc, so the
parse faults and the filter rejects it. -/
theorem C10_filter_total_on_fault_witness :
    urlparse_raises "http://[::1" = true ∧
    is_valid_url "http://[::1" "example.com" = false :=
  ⟨by decide, C10_filter_total_on_fault "http://[::1" "example.com" (by decide)⟩

/-- C4 counterexample: a seed-page link `/file.pdf?x=1` joins to a URL whose
path ends in `.pdf`, yet it is returned by discovery — the extension check
runs on the full URL text, which here ends in the query string. -/
theorem C4_candidate_filter_counterexample :
    ("https://example.com/file.pdf?x=1" ∈
      discover_urls "https://example.com" (some ["/file.pdf?x=1"]) 20) ∧
    pathOf "https://example.com/file.pdf?x=1" = "/file.pdf" ∧
    (".pdf" : String).data.isSuffixOf
      (lowerL (pathOf "https://example.com/file.pdf?x=1").data) = true :=
  ⟨by decide, by decide, by decide⟩

/-- C4 (amended): every URL returned by discovery has the seed's netloc,
its full lowercased text (not necessarily its path) ends in none of the
skipped extensions, and its lowercased text — hence in particular its
path — contains none of the skipped path fragments. -/
theorem C4_candidate_filter (base : String) (seed_links : Option (List String))
    (max_pages : Nat) :
    ∀ u ∈ discover_urls base seed_links max_pages,
      netlocOf u = netlocOf base ∧
      (∀ ext ∈ skip_extensions,
        ext.data.isSuffixOf (lowerL u.data) = false) ∧
      (∀ sp ∈ skip_paths, containsSub sp.data (lowerL u.data) = false) ∧
      (∀ sp ∈ skip_paths,
        containsSub sp.data (lowerL (pathOf u).data) = false) := by
  intro u hu
  obtain ⟨hr, hnet, hext, hsp⟩ := is_valid_spec (mem_discover_valid hu)
  refine ⟨hnet, hext, hsp, ?_⟩
  intro sp hsp2
  exact containsSub_lower_path_false (hsp sp hsp2)

/-- C4 witness: the amended theorem applied to the seed root itself, a
member of the discovered list for `https://example.com`. -/
theorem C4_candidate_filter_witness :
    ("https://example.com" ∈ discover_urls "https://example.com" (some []) 2) ∧
    (netlocOf "https://example.com" = netlocOf "https://example.com" ∧
     (∀ ext ∈ skip_extensions,
       ext.data.isSuffixOf (lowerL ("https://example.com" : String).data) = false) ∧
     (∀ sp ∈ skip_paths,
       containsSub sp.data (lowerL ("https://example.com" : String).data) = false) ∧
     (∀ sp ∈ skip_paths,
       containsSub sp.data
         (lowerL (pathOf "https://example.com").data) = false)) :=
  ⟨by decide,
   C4_candidate_filter "https://example.com" (some []) 2 "https://example.com"
     (by decide)⟩

/-- C5: `get_next_proxy` returns `none` exactly when no proxies are
configured; and in the starvation state (every configured index marked
failed) it clears the failure table and still returns a proxy drawn from
the full configured set, with equal `http` and `https` entries. -/
theorem C5_proxy_starvation_recovery (r : ProxyRotator) (pick : Nat) :
    ((get_next_proxy r pick).1 = none ↔ r.proxies = []) ∧
    (r.proxies ≠ [] →
      (∀ i < r.proxies.length, i ∈ r.failed_proxies) →
      (get_next_proxy r pick).2.failed_proxies = [] ∧
      ∃ pd : ProxyDict, (get_next_proxy r pick).1 = some pd ∧
        pd.http ∈ r.proxies ∧ pd.https = pd.http) := by
  by_cases hp : r.proxies = []
  · constructor
    · constructor
      · intro _; exact hp
      · intro _
        unfold get_next_proxy
        rw [if_pos hp]
    · intro hne; exact absurd hp hne
  · constructor
    · constructor
      · intro h
        exfalso
        unfold get_next_proxy at h
        rw [if_neg hp] at h
        split at h <;> exact Option.noConfusion h
      · intro h; exact absurd h hp
    · intro _ hall
      have hav : availableFrom r.proxies r.failed_proxies 0 = [] := by
        refine availableFrom_eq_nil ?_
        intro k hk
        simpa using hall k hk
      unfold get_next_proxy
      rw [if_neg hp, if_pos hav]
      exact ⟨rfl, ⟨_, rfl, getD_mod_mem hp pick, rfl⟩⟩

/-- C5 witness: two configured proxies with both indices marked failed; one
more request clears the failure table and returns a proxy from the full
set. -/
theorem C5_proxy_starvation_recovery_witness :
    (rotator_all_failed.proxies ≠ []) ∧
    (∀ i < rotator_all_failed.proxies.length,
      i ∈ rotator_all_failed.failed_proxies) ∧
    ((get_next_proxy rotator_all_failed 5).1 = none ↔
      rotator_all_failed.proxies = []) ∧
    ((get_next_proxy rotator_all_failed 5).2.failed_proxies = [] ∧
     ∃ pd : ProxyDict, (get_next_proxy rotator_all_failed 5).1 = some pd ∧
       pd.http ∈ rotator_all_failed.proxies ∧ pd.https = pd.http) :=
  ⟨by decide, by decide,
   (C5_proxy_starvation_recovery rotator_all_failed 5).1,
   (C5_proxy_starvation_recovery rotator_all_failed 5).2 (by decide) (by decide)⟩

/-- C6: `scrape_page` never propagates a per-page fault: on any fault
(raised exception or HTTP status in [400, 600)) it returns a page carrying
the input URL, empty title, description and content, `success = false`, and
the fault's message, which is non-empty whenever the fault carries one. -/
theorem C6_static_fetch_fault (url : String) (o : FetchOutcome)
    (hf : fault_of o = true) (hm : fault_message url o ≠ "") :
    scrape_page url o =
      { url := url, title := "", description := "", content := "",
        success := false, error_message := fault_message url o } ∧
    (scrape_page url o).error_message ≠ "" := by
  cases o with
  | exc m => exact ⟨rfl, hm⟩
  | resp s reason doc =>
    have hs : 400 ≤ s ∧ s < 600 := by
      simpa [fault_of] using hf
    constructor
    · simp only [scrape_page]
      rw [if_pos hs]
      rfl
    · simp only [scrape_page]
      rw [if_pos hs]
      exact hm

/-- C6 witness: a 404 response produces a failed page for the input URL
with the non-empty `HTTPError` message. -/
theorem C6_static_fetch_fault_witness :
    fault_of (.resp 404 "Not Found" .nil) = true ∧
    fault_message "https://example.com/x" (.resp 404 "Not Found" .nil) ≠ "" ∧
    scrape_page "https://example.com/x" (.resp 404 "Not Found" .nil) =
      { url := "https://example.com/x", title := "", description := "",
        content := "", success := false,
        error_message :=
          fault_message "https://example.com/x" (.resp 404 "Not Found" .nil) } :=
  ⟨by decide, by decide,
   (C6_static_fetch_fault "https://example.com/x" (.resp 404 "Not Found" .nil)
      (by decide) (by decide)).1⟩

/-- C8 counterexample: a document with a `.content` element of empty text
and an `article` with text `hello` extracts `hello` (the full body
fallback), not the `.content` element's text — the claim fails when the
first matching selector's text is empty. -/
theorem C8_extraction_priority_counterexample :
    (selectOneSel (Selector.classSel "content") (removeSS doc_empty_content)).map
        elemTextNL = some "" ∧
    (selectOneSel (Selector.tagSel "article") (removeSS doc_empty_content)).map
        elemTextNL = some "hello" ∧
    extractBody doc_empty_content = "hello" ∧
    ("hello" : String) ≠ "" :=
  ⟨by decide, by decide, by decide, by decide⟩

/-- C8 (amended): when no selector of higher priority than `.content`
matches and the first `.content` match has non-empty text, the extracted
body is exactly that element's cleaned text — `.content` takes priority
over `article` and the later selectors; when the match's text is empty the
extractor falls back to the full body text instead. -/
theorem C8_extraction_priority (doc el : Dom)
    (h1 : findFirstSel [Selector.tagSel "main", Selector.attrEq "role" "main",
        Selector.classSel "main-content"] (removeSS doc) = none)
    (h2 : selectOneSel (Selector.classSel "content") (removeSS doc) = some el)
    (h3 : elemTextNL el ≠ "") :
    extractBody doc = clean_lines (elemTextNL el) := by
  have e1 : selectOneSel (Selector.tagSel "main") (removeSS doc) = none := by
    cases he : selectOneSel (Selector.tagSel "main") (removeSS doc) with
    | none => rfl
    | some e =>
      simp only [findFirstSel, he] at h1
      exact h1
  have e2 : selectOneSel (Selector.attrEq "role" "main") (removeSS doc) = none := by
    cases he : selectOneSel (Selector.attrEq "role" "main") (removeSS doc) with
    | none => rfl
    | some e =>
      simp only [findFirstSel, e1, he] at h1
      exact h1
  have e3 : selectOneSel (Selector.classSel "main-content") (removeSS doc) = none := by
    cases he : selectOneSel (Selector.classSel "main-content") (removeSS doc) with
    | none => rfl
    | some e =>
      simp only [findFirstSel, e1, e2, he] at h1
      exact h1
  have hb : ¬ ((elemTextNL el == "") = true) := by
    simpa using h3
  unfold extractBody extract_main_content
  simp only [main_selectors, findFirstSel, e1, e2, e3, h2]
  rw [if_neg hb]

/-- C8 witness: a body holding `.content` with text `alpha` and an
`article` with text `beta`; the extracted body is `.content`'s cleaned
text. -/
theorem C8_extraction_priority_witness :
    findFirstSel [Selector.tagSel "main", Selector.attrEq "role" "main",
        Selector.classSel "main-content"] (removeSS doc_alpha) = none ∧
    selectOneSel (Selector.classSel "content") (removeSS doc_alpha) =
      some content_div_alpha ∧
    elemTextNL content_div_alpha ≠ "" ∧
    extractBody doc_alpha = clean_lines (elemTextNL content_div_alpha) ∧
    extractBody doc_alpha = "alpha" :=
  ⟨rfl, rfl, by decide,
   C8_extraction_priority doc_alpha content_div_alpha rfl rfl (by decide),
   by decide⟩
